import Mathlib

/-
Shallow embedding of the multiping repository's connection-management core
(src/multiping/src/message.rs, connection.rs, server.rs) and proofs about it.

Streams are modelled as lists of characters (the encoder only emits valid
UTF-8 and the only raw newline byte it produces is the terminator, so the
byte/char distinction is immaterial for the properties below).  Rust panics
are modelled explicitly by a `POutcome` result type, since several claims
hinge on which code paths panic.
-/

set_option maxRecDepth 4000

/-! Data model: the wire message enum (message.rs) and the crate error enum
(error.rs).  Payloads of `IoError` and `JsonError` (the wrapped io/serde
errors) are abstracted away; no claim inspects them. -/

inductive Message where
  | Ping
  | Text (s : String)
  | InvalidMessage
  | Disconnect
  | Error (s : String)
deriving DecidableEq

inductive Error where
  | IoError
  | JsonError
  | SenderDisconnected
  | ReceiverDisconnected
  | SendError
  | ThreadJoinError
  | InvalidConnectionId (id : Nat)
  | MutexLockError
  | UnexpectedMessage (m : Message)
deriving DecidableEq

deriving instance DecidableEq for Except

/-- Mirror of the crate's `Result<T>` alias (error.rs). -/
abbrev CrateResult (α : Type) := Except Error α

/-- Result of running a piece of Rust code that may return `Ok`, return
`Err`, or panic (`unimplemented!`, `panic!`, `Option::unwrap` on `None`). -/
inductive POutcome (α : Type) where
  | ok (a : α)
  | err (e : Error)
  | panicked
deriving DecidableEq

/-! Character constants, written via code points so that the only quoted
character literals in this file are plain letters and digits. -/

def quoteC : Char := Char.ofNat 34

def bsC : Char := Char.ofNat 92

def lbraceC : Char := Char.ofNat 123

def rbraceC : Char := Char.ofNat 125

def nlC : Char := Char.ofNat 10

def colonC : Char := Char.ofNat 58

/-- JSON insignificant whitespace: space, tab, newline, carriage return. -/
def isWs (c : Char) : Bool :=
  c.toNat = 32 || c.toNat = 9 || c.toNat = 10 || c.toNat = 13

def skipWs : List Char → List Char
  | [] => []
  | c :: rest => if isWs c then skipWs rest else c :: rest

/-- Lowercase hex digit, as emitted by serde_json's `\u00XX` escapes. -/
def hexDigitChar (n : Nat) : Char :=
  if n < 10 then Char.ofNat (48 + n) else Char.ofNat (87 + n)

/-- Value of a hex digit character, accepting both cases (RFC 8259). -/
def hexVal? (c : Char) : Option Nat :=
  if 48 ≤ c.toNat ∧ c.toNat ≤ 57 then some (c.toNat - 48)
  else if 97 ≤ c.toNat ∧ c.toNat ≤ 102 then some (c.toNat - 87)
  else if 65 ≤ c.toNat ∧ c.toNat ≤ 70 then some (c.toNat - 55)
  else none

/-- JSON string escaping of one character, exactly as serde_json's
serializer does it: `"` and `\` get two-character escapes, the five named
control escapes are used where they exist, every other control character
below 0x20 becomes `\u00XX` (lowercase hex), and everything else is passed
through verbatim (serde_json does not escape non-ASCII characters). -/
def escChar (c : Char) : List Char :=
  if c = quoteC then [bsC, quoteC]
  else if c = bsC then [bsC, bsC]
  else if c.toNat = 8 then [bsC, 'b']
  else if c.toNat = 9 then [bsC, 't']
  else if c.toNat = 10 then [bsC, 'n']
  else if c.toNat = 12 then [bsC, 'f']
  else if c.toNat = 13 then [bsC, 'r']
  else if c.toNat < 32 then
    [bsC, 'u', '0', '0', hexDigitChar (c.toNat / 16), hexDigitChar (c.toNat % 16)]
  else [c]

def escString : List Char → List Char
  | [] => []
  | c :: rest => escChar c ++ escString rest

/-- A serde_json string literal: opening quote, escaped body, closing quote. -/
def quoteJson (s : List Char) : List Char :=
  quoteC :: escString s ++ [quoteC]

def consOpt (c : Char) : Option (List Char × List Char) → Option (List Char × List Char)
  | some (s, rest) => some (c :: s, rest)
  | none => none

/-- JSON string body parser (cursor just past the opening quote), as
serde_json reads it: raw control characters are rejected, the eight simple
escapes are decoded, and `\uXXXX` is decoded with surrogate-pair handling
(a lone surrogate is an error).  Returns the decoded body and the input
remaining after the closing quote.  The recursion is indexed by fuel so
that every pattern match stays shallow; `parseStr` below instantiates the
fuel with the input length plus one, which is always sufficient because
every recursive call consumes at least one character. -/
def parseStrF : Nat → List Char → Option (List Char × List Char)
  | 0, _ => none
  | _ + 1, [] => none
  | fuel + 1, c :: rest =>
    if c = quoteC then some ([], rest)
    else if c = bsC then
      match rest with
      | [] => none
      | e :: r =>
        if e = quoteC then consOpt quoteC (parseStrF fuel r)
        else if e = bsC then consOpt bsC (parseStrF fuel r)
        else if e = '/' then consOpt '/' (parseStrF fuel r)
        else if e = 'b' then consOpt (Char.ofNat 8) (parseStrF fuel r)
        else if e = 'f' then consOpt (Char.ofNat 12) (parseStrF fuel r)
        else if e = 'n' then consOpt (Char.ofNat 10) (parseStrF fuel r)
        else if e = 'r' then consOpt (Char.ofNat 13) (parseStrF fuel r)
        else if e = 't' then consOpt (Char.ofNat 9) (parseStrF fuel r)
        else if e = 'u' then
          match r with
          | a :: b :: c2 :: d :: r2 =>
            match hexVal? a, hexVal? b, hexVal? c2, hexVal? d with
            | some ha, some hb, some hc, some hd =>
              let n := ((ha * 16 + hb) * 16 + hc) * 16 + hd
              if n < 0xd800 then consOpt (Char.ofNat n) (parseStrF fuel r2)
              else if 0xe000 ≤ n then consOpt (Char.ofNat n) (parseStrF fuel r2)
              else if 0xdc00 ≤ n then none
              else
                match r2 with
                | b1 :: b2 :: e1 :: e2 :: e3 :: e4 :: r3 =>
                  if b1 = bsC then
                    if b2 = 'u' then
                      match hexVal? e1, hexVal? e2, hexVal? e3, hexVal? e4 with
                      | some m1, some m2, some m3, some m4 =>
                        let m := ((m1 * 16 + m2) * 16 + m3) * 16 + m4
                        if 0xdc00 ≤ m then
                          if m < 0xe000 then
                            consOpt (Char.ofNat (0x10000 + (n - 0xd800) * 1024 + (m - 0xdc00)))
                              (parseStrF fuel r3)
                          else none
                        else none
                      | _, _, _, _ => none
                    else none
                  else none
                | _ => none
            | _, _, _, _ => none
          | _ => none
        else none
    else if c.toNat < 32 then none
    else consOpt c (parseStrF fuel rest)

/-- The JSON string body parser at its canonical (always sufficient) fuel. -/
def parseStr (l : List Char) : Option (List Char × List Char) :=
  parseStrF (l.length + 1) l

/-- One JSON value of the shapes serde_json's derived `Deserialize` for
`Message` accepts from the serializer's output: a JSON string naming a unit
variant (externally tagged representation), or a single-key JSON object
whose key names a newtype variant and whose value is a JSON string.  Other
JSON values are deserialization errors for this enum and yield `none`.
Returns the message and the unconsumed input. -/
def parseMessage (l : List Char) : Option (Message × List Char) :=
  match skipWs l with
  | [] => none
  | c :: rest =>
    if c = quoteC then
      match parseStr rest with
      | some (name, r) =>
        if name = "Ping".data then some (Message.Ping, r)
        else if name = "InvalidMessage".data then some (Message.InvalidMessage, r)
        else if name = "Disconnect".data then some (Message.Disconnect, r)
        else none
      | none => none
    else if c = lbraceC then
      match skipWs rest with
      | [] => none
      | k :: r1 =>
        if k = quoteC then
          match parseStr r1 with
          | some (key, r2) =>
            match skipWs r2 with
            | [] => none
            | cc :: r3 =>
              if cc = colonC then
                match skipWs r3 with
                | [] => none
                | v :: r4 =>
                  if v = quoteC then
                    match parseStr r4 with
                    | some (val, r5) =>
                      match skipWs r5 with
                      | [] => none
                      | cb :: r6 =>
                        if cb = rbraceC then
                          if key = "Text".data then some (Message.Text (String.mk val), r6)
                          else if key = "Error".data then some (Message.Error (String.mk val), r6)
                          else none
                        else none
                    | none => none
                  else none
              else none
          | none => none
        else none
    else none

/-- serde_json::from_str for `Message`: parse one value, then require the
rest of the input to be whitespace (serde_json's `end` check). -/
def from_str (l : List Char) : Option Message :=
  match parseMessage l with
  | some (m, rest) => if skipWs rest = [] then some m else none
  | none => none

/-- BufRead::read_line, one call: everything up to and including the first
newline, or the whole remaining input if the stream ends first (a closed
or exhausted stream yields the empty line). -/
def readLine : List Char → List Char
  | [] => []
  | c :: rest => if c = nlC then [nlC] else c :: readLine rest

/-- serde_json::to_string for `Message` (message.rs derives Serialize):
unit variants serialize to a JSON string, newtype variants to a one-key
JSON object, with no insignificant whitespace. -/
def Message.to_string : Message → List Char
  | Message.Ping => quoteJson "Ping".data
  | Message.Text s => lbraceC :: quoteJson "Text".data ++ colonC :: quoteJson s.data ++ [rbraceC]
  | Message.InvalidMessage => quoteJson "InvalidMessage".data
  | Message.Disconnect => quoteJson "Disconnect".data
  | Message.Error s => lbraceC :: quoteJson "Error".data ++ colonC :: quoteJson s.data ++ [rbraceC]

/-- Message::write (message.rs): serialize to JSON, then write the JSON
followed by one newline; the model returns the bytes written. -/
def Message.write (m : Message) : List Char :=
  m.to_string ++ [nlC]

/-- Message::recv (message.rs): read one line from the stream, then
deserialize it; a serde_json failure surfaces as `Error::JsonError`. -/
def Message.recv (input : List Char) : CrateResult Message :=
  match from_str (readLine input) with
  | some m => Except.ok m
  | none => Except.error Error.JsonError

/-- A JSON document is an object precisely when its first non-whitespace
character is an opening brace. -/
def jsonStartsObject (l : List Char) : Bool :=
  match skipWs l with
  | [] => false
  | c :: _ => c = lbraceC

/-! Connection (connection.rs).  A `Connection` owns two worker threads and
one action channel to each.  For the claims below the relevant observable
state is: whether each worker's action channel still has a live receiver
(the worker has not exited), and whether each `Option<JoinHandle>` is still
`Some` (it is `take`n by `disconnect`).  Sending on a channel whose worker
has exited returns `Err`; worker exit itself is an asynchronous environment
event, modelled by starting from an arbitrary `Connection` state. -/

structure Connection where
  id : Nat
  /-- the send (writer) worker's action channel still has a live receiver -/
  sendOpen : Bool
  /-- the recv (reader) worker's action channel still has a live receiver -/
  recvOpen : Bool
  /-- `send_worker : Option<JoinHandle>` is `Some` -/
  sendWorker : Bool
  /-- `recv_worker : Option<JoinHandle>` is `Some` -/
  recvWorker : Bool
deriving DecidableEq

/-- Connection::new: both workers spawned and running, handles held. -/
def Connection.new (id : Nat) : Connection :=
  { id := id, sendOpen := true, recvOpen := true, sendWorker := true, recvWorker := true }

/-- Connection::forward (connection.rs lines 93-106).  The source matches on
`send_tx.send(Action::Forward(msg))`: the `Err` arm returns
`Error::SenderDisconnected`, but the `Ok(())` arm is `unimplemented!()`,
which panics; the trailing `Ok(())` after the match is unreachable. -/
def Connection.forward (c : Connection) (_msg : Message) : POutcome Unit :=
  if c.sendOpen then POutcome.panicked
  else POutcome.err Error.SenderDisconnected

/-- Connection::disconnect (connection.rs lines 109-139): forward a
`Message::Disconnect` to the client (log-and-continue on failure), then
`take` each worker handle and, when it was still held, send that worker an
`Action::Disconnect` stop signal (errors logged).  The third component
lists the client-bound messages successfully enqueued for the writer
worker during the call.  When the writer channel is still open the initial
`forward` enqueues the message and then panics (see `Connection.forward`),
so `disconnect` never reaches the handle-taking steps in that case. -/
def Connection.disconnect (c : Connection) : POutcome Unit × Connection × List Message :=
  if c.sendOpen then
    (POutcome.panicked, c, [Message.Disconnect])
  else
    (POutcome.ok (), { c with sendWorker := false, recvWorker := false }, [])

/-! Association-list model of `HashMap<ConnectionId, _>`.  A `HashMap` never
holds two entries with the same key, so theorems about arbitrary registry
states carry a `Nodup` hypothesis on the key list; iteration order of a
`HashMap` is arbitrary, and the list fixes one such order. -/

def lookupA {α : Type} (k : Nat) : List (Nat × α) → Option α
  | [] => none
  | (k2, v) :: rest => if k2 = k then some v else lookupA k rest

def insertA {α : Type} (k : Nat) (v : α) : List (Nat × α) → List (Nat × α)
  | [] => [(k, v)]
  | (k2, v2) :: rest => if k2 = k then (k, v) :: rest else (k2, v2) :: insertA k v rest

def eraseA {α : Type} (k : Nat) : List (Nat × α) → List (Nat × α)
  | [] => []
  | (k2, v2) :: rest => if k2 = k then rest else (k2, v2) :: eraseA k rest

/-! ConnectionRegistry (connection.rs lines 263-360). -/

structure ConnectionRegistry where
  next_id : Nat
  connections : List (Nat × Connection)
deriving DecidableEq

def ConnectionRegistry.new : ConnectionRegistry :=
  { next_id := 0, connections := [] }

/-- ConnectionRegistry::add: take `next_id`, increment it, build the
Connection, insert it; `panic!` if the insert returned a previous value
under the same id (the duplicate-key branch). -/
def ConnectionRegistry.add (r : ConnectionRegistry) : POutcome Nat × ConnectionRegistry :=
  let id := r.next_id
  let conn := Connection.new id
  let old := lookupA id r.connections
  let r2 : ConnectionRegistry := ⟨id + 1, insertA id conn r.connections⟩
  match old with
  | some _ => (POutcome.panicked, r2)
  | none => (POutcome.ok id, r2)

/-- ConnectionRegistry::remove: `HashMap::remove(&id).ok_or(InvalidConnectionId)`. -/
def ConnectionRegistry.remove (r : ConnectionRegistry) (id : Nat) :
    POutcome Connection × ConnectionRegistry :=
  match lookupA id r.connections with
  | some c => (POutcome.ok c, ⟨r.next_id, eraseA id r.connections⟩)
  | none => (POutcome.err (Error.InvalidConnectionId id), r)

/-- ConnectionRegistry::disconnect: `remove(id).map(|mut conn| conn.disconnect())`. -/
def ConnectionRegistry.disconnect (r : ConnectionRegistry) (id : Nat) :
    POutcome Unit × ConnectionRegistry :=
  match r.remove id with
  | (POutcome.ok c, r1) => ((Connection.disconnect c).1, r1)
  | (POutcome.err e, r1) => (POutcome.err e, r1)
  | (POutcome.panicked, r1) => (POutcome.panicked, r1)

/-- Trace of the iteration phase of `forward_to_all`: the ids on which
`Connection::forward` was invoked (in order), the ids pushed onto
`dead_conns`, and whether a `forward` call panicked, which aborts the
iteration (the panic propagates out of `forward_to_all`). -/
structure ScanResult where
  invoked : List Nat
  dead : List Nat
  scanPanicked : Bool
deriving DecidableEq

/-- The `for (&id, conn) in self.connections.iter_mut()` loop of
ConnectionRegistry::forward_to_all: skip the source id, call `forward` on
every other connection, push failures onto `dead_conns`.  The map itself is
not mutated during this loop. -/
def scanConns (msg : Message) (source : Nat) : List (Nat × Connection) → ScanResult
  | [] => { invoked := [], dead := [], scanPanicked := false }
  | (id, c) :: rest =>
    if id = source then scanConns msg source rest
    else
      match Connection.forward c msg with
      | POutcome.ok _ =>
        let s := scanConns msg source rest
        { s with invoked := id :: s.invoked }
      | POutcome.err _ =>
        let s := scanConns msg source rest
        { invoked := id :: s.invoked, dead := id :: s.dead, scanPanicked := s.scanPanicked }
      | POutcome.panicked => { invoked := [id], dead := [], scanPanicked := true }

/-- The clean-up loop of forward_to_all: `self.disconnect(id)` for each
collected dead id, with `unwrap_or_else(|_| panic!(..))` on a registry
error. -/
def cleanupDead : ConnectionRegistry → List Nat → POutcome Unit × ConnectionRegistry
  | r, [] => (POutcome.ok (), r)
  | r, id :: rest =>
    match r.disconnect id with
    | (POutcome.ok _, r1) => cleanupDead r1 rest
    | (POutcome.err _, r1) => (POutcome.panicked, r1)
    | (POutcome.panicked, r1) => (POutcome.panicked, r1)

/-- ConnectionRegistry::forward_to_all (connection.rs lines 298-332):
iterate over all connections skipping `source`, collecting ids whose
`forward` failed, then remove the collected ids; returns `Ok(())` when it
completes.  A panic inside a `forward` call aborts before any removal. -/
def ConnectionRegistry.forward_to_all (r : ConnectionRegistry) (msg : Message) (source : Nat) :
    POutcome Unit × ConnectionRegistry :=
  let s := scanConns msg source r.connections
  if s.scanPanicked then (POutcome.panicked, r)
  else cleanupDead r s.dead

/-- ConnectionRegistry::disconnect_all: drain the map, disconnecting each
connection; a live writer channel makes `Connection::disconnect` panic,
and `HashMap::Drain`'s drop clears the map even then. -/
def ConnectionRegistry.disconnect_all (r : ConnectionRegistry) : POutcome Unit × ConnectionRegistry :=
  if r.connections.any (fun p => p.2.sendOpen) then
    (POutcome.panicked, ⟨r.next_id, []⟩)
  else (POutcome.ok (), ⟨r.next_id, []⟩)

/-! RemoteClients (server.rs lines 88-160, the repository's older snapshot
of the registry).  Only the registration path matters for the claims. -/

structure RemoteClient where
  id : Nat
deriving DecidableEq

structure RemoteClients where
  next_id : Nat
  clients : List (Nat × RemoteClient)
deriving DecidableEq

def RemoteClients.new : RemoteClients :=
  { next_id := 0, clients := [] }

/-- RemoteClients::create_client (server.rs lines 104-112): allocate the
next id and run `self.clients.lock().unwrap().insert(id, client).unwrap()`.
`HashMap::insert` returns the previous value under the key, so it returns
`None` exactly when the id is fresh, and the trailing `Option::unwrap`
panics on `None`: every collision-free registration panics, and only an id
collision would survive the unwrap. -/
def RemoteClients.create_client (r : RemoteClients) : POutcome Nat × RemoteClients :=
  let id := r.next_id
  let old := lookupA id r.clients
  let r2 : RemoteClients := ⟨id + 1, insertA id ⟨id⟩ r.clients⟩
  match old with
  | some _ => (POutcome.ok id, r2)
  | none => (POutcome.panicked, r2)

/-! Router dispatch loop. -/

inductive DispatchOutcome where
  | continued (r : ConnectionRegistry)
  | stoppedOk
  | stoppedErr (e : Error)
  | panicked (r : ConnectionRegistry)
deriving DecidableEq

/-- Outcome of the data-plane arm: the result of `forwardToAll` is logged,
never fatal to the loop (a panic inside it still unwinds, of course). -/
def dataOutcome : POutcome Unit × ConnectionRegistry → DispatchOutcome
  | (POutcome.ok _, r) => DispatchOutcome.continued r
  | (POutcome.err _, r) => DispatchOutcome.continued r
  | (POutcome.panicked, r) => DispatchOutcome.panicked r

/-- Modelled from the spec: the Router's dispatch activity (spec section
4.3) has no implementation under src/ — `forward_to_all` has no caller
there, and the checked-in server.rs is an older snapshot without a loop
consuming the shared inbound queue — so one step of that loop is modelled
from the spec's words and wired to the real registry operations.  `none`
is the queue reporting all senders closed; `some (id, msg)` is one
received pair.  Ping and Text are forwarded to all peers except the
sender, with forwarding failures logged and not fatal; Disconnect calls
`registry.disconnect(id)`, whose error terminates the loop as a hard
error; every other tag is an `UnexpectedMessage` hard error. -/
def dispatchStep (r : ConnectionRegistry) : Option (Nat × Message) → DispatchOutcome
  | none => DispatchOutcome.stoppedOk
  | some (id, Message.Ping) => dataOutcome (r.forward_to_all Message.Ping id)
  | some (id, Message.Text s) => dataOutcome (r.forward_to_all (Message.Text s) id)
  | some (id, Message.Disconnect) =>
    match r.disconnect id with
    | (POutcome.ok _, r1) => DispatchOutcome.continued r1
    | (POutcome.err e, _) => DispatchOutcome.stoppedErr e
    | (POutcome.panicked, r1) => DispatchOutcome.panicked r1
  | some (_, m) => DispatchOutcome.stoppedErr (Error.UnexpectedMessage m)

/-- True when the step terminated the dispatch loop with a hard error. -/
def DispatchOutcome.isHardStop : DispatchOutcome → Bool
  | DispatchOutcome.stoppedErr _ => true
  | _ => false

/-! Operation traces against a registry, for lifecycle invariants.
`opPeerClose` is the environment event "this connection's writer worker
exited" (peer closed the socket / write error); the others are the public
registry operations.  A panic aborts the trace. -/

inductive RegOp where
  | opAdd
  | opRemove (id : Nat)
  | opDisconnect (id : Nat)
  | opForwardAll (msg : Message) (source : Nat)
  | opDisconnectAll
  | opPeerClose (id : Nat)

def peerClose (id : Nat) : List (Nat × Connection) → List (Nat × Connection)
  | [] => []
  | (k, c) :: rest =>
    if k = id then (k, { c with sendOpen := false }) :: rest
    else (k, c) :: peerClose id rest

/-- Apply one operation; returns the new registry, the ids returned to the
caller by `add`, and whether the operation panicked. -/
def applyOp (r : ConnectionRegistry) : RegOp → ConnectionRegistry × List Nat × Bool
  | RegOp.opAdd =>
    match r.add with
    | (POutcome.ok id, r1) => (r1, [id], false)
    | (_, r1) => (r1, [], true)
  | RegOp.opRemove id => ((r.remove id).2, [], false)
  | RegOp.opDisconnect id =>
    match r.disconnect id with
    | (POutcome.panicked, r1) => (r1, [], true)
    | (_, r1) => (r1, [], false)
  | RegOp.opForwardAll msg source =>
    match r.forward_to_all msg source with
    | (POutcome.panicked, r1) => (r1, [], true)
    | (_, r1) => (r1, [], false)
  | RegOp.opDisconnectAll =>
    match r.disconnect_all with
    | (POutcome.panicked, r1) => (r1, [], true)
    | (_, r1) => (r1, [], false)
  | RegOp.opPeerClose id => (⟨r.next_id, peerClose id r.connections⟩, [], false)

/-- Run a trace of operations, collecting every id `add` returned, and
stopping at the first panic. -/
def runOps : ConnectionRegistry → List RegOp → ConnectionRegistry × List Nat
  | r, [] => (r, [])
  | r, op :: rest =>
    match applyOp r op with
    | (r1, ids, true) => (r1, ids)
    | (r1, ids, false) =>
      let p := runOps r1 rest
      (p.1, ids ++ p.2)

/-! Concrete fixtures used by the claim evaluations and witnesses. -/

/-- A connection whose writer worker has already exited (the peer went
away), so its forward channel is closed. -/
def deadConn (id : Nat) : Connection :=
  { id := id, sendOpen := false, recvOpen := true, sendWorker := true, recvWorker := true }

/-- Registry with one dead and one live peer (ids 1 and 2). -/
def regDeadLive : ConnectionRegistry :=
  ⟨3, [(1, deadConn 1), (2, Connection.new 2)]⟩

/-- Registry with two live peers (ids 1 and 2). -/
def regLiveLive : ConnectionRegistry :=
  ⟨3, [(1, Connection.new 1), (2, Connection.new 2)]⟩

/-- Registry with two dead peers (ids 1 and 2) plus the source id 0. -/
def regAllDead : ConnectionRegistry :=
  ⟨3, [(0, Connection.new 0), (1, deadConn 1), (2, deadConn 2)]⟩

/-- Registry holding a single dead connection under id 5. -/
def regOne : ConnectionRegistry :=
  ⟨6, [(5, deadConn 5)]⟩

/-- True on the newtype (data-carrying) variants, which serialize to a
one-key JSON object; the unit variants serialize to a JSON string. -/
def isDataVariant : Message → Bool
  | Message.Text _ => true
  | Message.Error _ => true
  | _ => false

/-! Theorems.  First the claim theorems whose statements are closed
evaluations of the code at concrete inputs, then the general lemmas and
the remaining claims. -/

/-- Claim C1: the claim says `forward(msg)` enqueues the message and
returns `Ok` while the writer worker's channel is open, and fails with
`SenderDisconnected` exactly when it is closed.  The code's second half is
as claimed, but on the open-channel (successful enqueue) path the `Ok(())`
match arm is `unimplemented!()`, so `forward` panics instead of returning
`Ok`: evaluated here on a fresh connection (worker alive) and on a
connection whose writer worker has exited. -/
theorem claim1_forward_panics_on_live_worker :
    Connection.forward (Connection.new 7) Message.Ping = POutcome.panicked ∧
    Connection.forward (deadConn 7) Message.Ping = POutcome.err Error.SenderDisconnected := by
  decide

/-- Claim C3: the claim says registration inserts into the map without
panicking, the collision branch being unreachable.  `ConnectionRegistry::add`
satisfies this (second conjunct: the very first registration returns id 0
without panicking), but the repository's older registration snapshot
`RemoteClients::create_client` runs `insert(id, client).unwrap()`, and
`HashMap::insert` returns `None` on a fresh key, so the first (collision-free)
registration panics via `Option::unwrap` (first conjunct). -/
theorem claim3_create_client_panics_on_fresh_insert :
    (RemoteClients.create_client RemoteClients.new).1 = POutcome.panicked ∧
    (ConnectionRegistry.add ConnectionRegistry.new).1 = POutcome.ok 0 := by
  decide

/-- Claim C5: evaluation at the failing input.  In a registry holding the
dead connection 1 and the live connection 2 (iteration order 1 then 2,
one of the orders an arbitrary-order HashMap can produce), broadcasting
from source 0 collects id 1 into `dead_conns` because its `forward` fails,
but then panicks inside connection 2's `forward` (the `unimplemented!()`
slip), so the deferred removal phase never runs: `forward_to_all` panics
and connection 1 is still found by the next lookup, contradicting the
claim that a connection whose forward failed is absent afterwards. -/
theorem claim5_failed_conn_survives_panicked_broadcast :
    (scanConns Message.Ping 0 regDeadLive.connections).dead = [1] ∧
    (regDeadLive.forward_to_all Message.Ping 0).1 = POutcome.panicked ∧
    (regDeadLive.forward_to_all Message.Ping 0).2.connections = regDeadLive.connections ∧
    lookupA 1 (regDeadLive.forward_to_all Message.Ping 0).2.connections = some (deadConn 1) := by
  decide

/-- Claim C6: evaluation at the failing input.  In a registry holding the
two live connections 1 and 2, broadcasting from source 0 invokes `forward`
on connection 1, which panics (the `unimplemented!()` slip), so `forward`
is never invoked on the other live connection 2 — its invocation count is
0, not the claimed exactly-once.  The source id is indeed never invoked. -/
theorem claim6_live_peer_skipped_by_panicked_broadcast :
    (scanConns Message.Ping 0 regLiveLive.connections).invoked = [1] ∧
    List.count 2 (scanConns Message.Ping 0 regLiveLive.connections).invoked = 0 ∧
    List.count 0 (scanConns Message.Ping 0 regLiveLive.connections).invoked = 0 ∧
    (regLiveLive.forward_to_all Message.Ping 0).1 = POutcome.panicked := by
  decide

/-- Claim C10: on a cleanly closed or exhausted stream `read_line` reads
zero bytes, and `recv` surfaces the serde_json failure on the empty string
as a `JsonError` — an `Err`, never `Ok` and never an EOF-specific result. -/
theorem claim10_recv_on_eof_is_json_error :
    readLine ([] : List Char) = [] ∧
    Message.recv [] = Except.error Error.JsonError := by
  decide

/-- Claim C4: disconnect is idempotent.  If a first `disconnect` call
completed (did not panic), then the second call on the resulting
connection panics neither, enqueues no second `Disconnect` message for the
client, and leaves both worker handles taken; moreover already after the
first call both handles are taken, so the object is never observably
half-alive after a completed `disconnect` returns. -/
theorem claim4_disconnect_idempotent (c : Connection)
    (h : (Connection.disconnect c).1 = POutcome.ok ()) :
    (Connection.disconnect (Connection.disconnect c).2.1).1 = POutcome.ok () ∧
    (Connection.disconnect (Connection.disconnect c).2.1).2.2 = [] ∧
    (Connection.disconnect (Connection.disconnect c).2.1).2.1.sendWorker = false ∧
    (Connection.disconnect (Connection.disconnect c).2.1).2.1.recvWorker = false ∧
    (Connection.disconnect c).2.1.sendWorker = false ∧
    (Connection.disconnect c).2.1.recvWorker = false := by
  by_cases hs : c.sendOpen
  · exact absurd h (by simp [Connection.disconnect, hs])
  · simp [Connection.disconnect, hs]

/-- Claim C4 witness: the hypothesis and conclusion hold at a concrete
connection whose writer worker has already exited. -/
theorem claim4_disconnect_idempotent_witness :
    (Connection.disconnect (deadConn 9)).1 = POutcome.ok () ∧
    ((Connection.disconnect (Connection.disconnect (deadConn 9)).2.1).1 = POutcome.ok () ∧
      (Connection.disconnect (Connection.disconnect (deadConn 9)).2.1).2.2 = [] ∧
      (Connection.disconnect (Connection.disconnect (deadConn 9)).2.1).2.1.sendWorker = false ∧
      (Connection.disconnect (Connection.disconnect (deadConn 9)).2.1).2.1.recvWorker = false ∧
      (Connection.disconnect (deadConn 9)).2.1.sendWorker = false ∧
      (Connection.disconnect (deadConn 9)).2.1.recvWorker = false) :=
  ⟨by decide, claim4_disconnect_idempotent (deadConn 9) (by decide)⟩

/-- Claim C9: `remove(id)` returns the stored connection and erases it when
`id` is present, and fails with `InvalidConnectionId(id)` leaving the map
unchanged exactly when `id` is absent; `disconnect(id)` is remove followed
by `Connection::disconnect` on the removed connection and has the same
failure mode on an absent id. -/
theorem claim9_remove_disconnect_failure_modes (r : ConnectionRegistry) (id : Nat) :
    (lookupA id r.connections = none →
      r.remove id = (POutcome.err (Error.InvalidConnectionId id), r) ∧
      r.disconnect id = (POutcome.err (Error.InvalidConnectionId id), r)) ∧
    (∀ c, lookupA id r.connections = some c →
      r.remove id = (POutcome.ok c, ⟨r.next_id, eraseA id r.connections⟩) ∧
      r.disconnect id = ((Connection.disconnect c).1, ⟨r.next_id, eraseA id r.connections⟩)) := by
  constructor
  · intro h
    constructor
    · simp [ConnectionRegistry.remove, h]
    · simp [ConnectionRegistry.disconnect, ConnectionRegistry.remove, h]
  · intro c h
    constructor
    · simp [ConnectionRegistry.remove, h]
    · simp [ConnectionRegistry.disconnect, ConnectionRegistry.remove, h]

/-- Claim C9 witness: both failure modes discharged at a concrete registry
holding one connection under id 5 — removal of the absent id 7 errs with
`InvalidConnectionId 7` leaving the registry unchanged, and removal and
disconnect of the present id 5 succeed. -/
theorem claim9_remove_disconnect_failure_modes_witness :
    ConnectionRegistry.remove regOne 7 = (POutcome.err (Error.InvalidConnectionId 7), regOne) ∧
    ConnectionRegistry.remove regOne 5 = (POutcome.ok (deadConn 5), ⟨6, []⟩) ∧
    ConnectionRegistry.disconnect regOne 5 = (POutcome.ok (), ⟨6, []⟩) := by
  refine ⟨((claim9_remove_disconnect_failure_modes regOne 7).1 (by decide)).1, ?_, ?_⟩
  · have h := ((claim9_remove_disconnect_failure_modes regOne 5).2 (deadConn 5) (by decide)).1
    rw [h]; decide
  · have h := ((claim9_remove_disconnect_failure_modes regOne 5).2 (deadConn 5) (by decide)).2
    rw [h]; decide

/-! Registry lifecycle lemmas: no operation ever decreases `next_id`, and
only `add` emits ids, each equal to the `next_id` at the time of the call. -/

theorem add_eq (r : ConnectionRegistry) :
    r.add = match lookupA r.next_id r.connections with
      | some _ => (POutcome.panicked,
          ⟨r.next_id + 1, insertA r.next_id (Connection.new r.next_id) r.connections⟩)
      | none => (POutcome.ok r.next_id,
          ⟨r.next_id + 1, insertA r.next_id (Connection.new r.next_id) r.connections⟩) := rfl

theorem remove_next_id (r : ConnectionRegistry) (id : Nat) :
    (r.remove id).2.next_id = r.next_id := by
  unfold ConnectionRegistry.remove
  cases lookupA id r.connections <;> rfl

theorem disconnect_next_id (r : ConnectionRegistry) (id : Nat) :
    (r.disconnect id).2.next_id = r.next_id := by
  unfold ConnectionRegistry.disconnect
  rcases h : r.remove id with ⟨o, r1⟩
  have hn : r1.next_id = r.next_id := by rw [← remove_next_id r id, h]
  cases o <;> simp [hn]

theorem cleanupDead_next_id (dead : List Nat) : ∀ r : ConnectionRegistry,
    (cleanupDead r dead).2.next_id = r.next_id := by
  induction dead with
  | nil => intro r; rfl
  | cons id rest ih =>
    intro r
    unfold cleanupDead
    rcases h : r.disconnect id with ⟨o, r1⟩
    have hn : r1.next_id = r.next_id := by rw [← disconnect_next_id r id, h]
    cases o <;> simp [ih, hn]

theorem forward_to_all_next_id (r : ConnectionRegistry) (msg : Message) (source : Nat) :
    (r.forward_to_all msg source).2.next_id = r.next_id := by
  unfold ConnectionRegistry.forward_to_all
  by_cases h : (scanConns msg source r.connections).scanPanicked <;>
    simp [h, cleanupDead_next_id]

theorem applyOp_spec (r : ConnectionRegistry) (op : RegOp) :
    r.next_id ≤ (applyOp r op).1.next_id ∧
    ((applyOp r op).2.1 = [] ∨
      ((applyOp r op).2.1 = [r.next_id] ∧ r.next_id < (applyOp r op).1.next_id)) := by
  cases op with
  | opAdd =>
    have hstep : applyOp r RegOp.opAdd = match r.add with
        | (POutcome.ok id, r1) => (r1, [id], false)
        | (_, r1) => (r1, [], true) := rfl
    rw [hstep, add_eq]
    cases h : lookupA r.next_id r.connections
    · exact ⟨Nat.le_succ _, Or.inr ⟨rfl, Nat.lt_succ_self _⟩⟩
    · exact ⟨Nat.le_succ _, Or.inl rfl⟩
  | opRemove id =>
    refine ⟨?_, Or.inl rfl⟩
    simp [applyOp, remove_next_id]
  | opDisconnect id =>
    have hn := disconnect_next_id r id
    rcases h : r.disconnect id with ⟨o, r1⟩
    have hn2 : r1.next_id = r.next_id := by rw [h] at hn; exact hn
    cases o <;> simp [applyOp, h, hn2]
  | opForwardAll msg source =>
    have hn := forward_to_all_next_id r msg source
    rcases h : r.forward_to_all msg source with ⟨o, r1⟩
    have hn2 : r1.next_id = r.next_id := by rw [h] at hn; exact hn
    cases o <;> simp [applyOp, h, hn2]
  | opDisconnectAll =>
    unfold applyOp ConnectionRegistry.disconnect_all
    by_cases h : r.connections.any (fun p => p.2.sendOpen) <;> simp [h]
  | opPeerClose id => simp [applyOp]

theorem runOps_cons (r : ConnectionRegistry) (op : RegOp) (rest : List RegOp) :
    runOps r (op :: rest) = match applyOp r op with
      | (r1, ids, true) => (r1, ids)
      | (r1, ids, false) => ((runOps r1 rest).1, ids ++ (runOps r1 rest).2) := rfl

theorem runOps_spec (ops : List RegOp) : ∀ r : ConnectionRegistry,
    (∀ i ∈ (runOps r ops).2, r.next_id ≤ i) ∧
    r.next_id ≤ (runOps r ops).1.next_id ∧
    List.Pairwise (· < ·) (runOps r ops).2 := by
  induction ops with
  | nil => intro r; simp [runOps]
  | cons op rest ih =>
    intro r
    obtain ⟨hmono, hemit⟩ := applyOp_spec r op
    rcases h : applyOp r op with ⟨r1, ids, flag⟩
    replace hmono : r.next_id ≤ r1.next_id := by rw [h] at hmono; exact hmono
    replace hemit : ids = [] ∨ (ids = [r.next_id] ∧ r.next_id < r1.next_id) := by
      rw [h] at hemit; exact hemit
    cases flag with
    | true =>
      rw [runOps_cons, h]
      dsimp only
      refine ⟨?_, hmono, ?_⟩
      · intro i hi
        rcases hemit with he | ⟨he, _⟩
        · rw [he] at hi; cases hi
        · rw [he] at hi; simp at hi; subst hi; exact le_refl _
      · rcases hemit with he | ⟨he, _⟩ <;> rw [he] <;> simp
    | false =>
      obtain ⟨ih1, ih2, ih3⟩ := ih r1
      rw [runOps_cons, h]
      dsimp only
      refine ⟨?_, le_trans hmono ih2, ?_⟩
      · intro i hi
        rw [List.mem_append] at hi
        rcases hi with hi | hi
        · rcases hemit with he | ⟨he, _⟩
          · rw [he] at hi; cases hi
          · rw [he] at hi; simp at hi; subst hi; exact le_refl _
        · exact le_trans hmono (ih1 i hi)
      · apply List.pairwise_append.2
        refine ⟨?_, ih3, ?_⟩
        · rcases hemit with he | ⟨he, _⟩ <;> rw [he] <;> simp
        · intro a ha b hb
          rcases hemit with he | ⟨he, hlt⟩
          · rw [he] at ha; cases ha
          · rw [he] at ha; simp at ha; subst ha
            exact lt_of_lt_of_le hlt (ih1 b hb)

/-- Claim C7: over every trace of registry operations (registrations
interleaved with arbitrary removals, disconnects, broadcasts, shutdowns
and peer-closure environment events), the ids returned by `add` are
strictly increasing in order of allocation — hence pairwise distinct, and
an id is never reused even after its connection is removed or
disconnected, since `next_id` never decreases. -/
theorem claim7_ids_strictly_increasing (ops : List RegOp) :
    List.Pairwise (· < ·) (runOps ConnectionRegistry.new ops).2 :=
  (runOps_spec ops ConnectionRegistry.new).2.2

/-! Dispatch-loop lemmas. -/

theorem dataOutcome_not_hard (p : POutcome Unit × ConnectionRegistry) :
    (dataOutcome p).isHardStop = false := by
  rcases p with ⟨o, r⟩
  cases o <;> rfl

theorem scan_count_source_zero (msg : Message) (source : Nat) :
    ∀ conns : List (Nat × Connection),
    List.count source (scanConns msg source conns).invoked = 0 := by
  intro conns
  induction conns with
  | nil => rfl
  | cons p rest ih =>
    rcases p with ⟨id, c⟩
    by_cases h : id = source
    · simp [scanConns, h, ih]
    · cases hf : Connection.forward c msg <;>
        simp [scanConns, h, hf, ih, List.count_cons, Ne.symm h]

/-- Claim C2: one step of the Router's dispatch activity (modelled from the
spec, see `dispatchStep`) routes as claimed: a closed queue terminates the
loop normally; a Ping or Text payload is handed to
`forward_to_all(msg, source := id)` — which never invokes the sender's own
`forward` (the `count = 0` conjuncts) — and its outcome is never a hard
loop error; a Disconnect tag calls `registry.disconnect(id)`, continuing
on success and propagating a registry error as a hard stop; and every
other tag (`InvalidMessage`, `Error`) terminates the loop with
`UnexpectedMessage`. -/
theorem claim2_dispatch_routing (r : ConnectionRegistry) (id : Nat) (s : String) :
    dispatchStep r none = DispatchOutcome.stoppedOk ∧
    dispatchStep r (some (id, Message.Ping)) = dataOutcome (r.forward_to_all Message.Ping id) ∧
    dispatchStep r (some (id, Message.Text s)) =
      dataOutcome (r.forward_to_all (Message.Text s) id) ∧
    (dispatchStep r (some (id, Message.Ping))).isHardStop = false ∧
    (dispatchStep r (some (id, Message.Text s))).isHardStop = false ∧
    List.count id (scanConns Message.Ping id r.connections).invoked = 0 ∧
    List.count id (scanConns (Message.Text s) id r.connections).invoked = 0 ∧
    (∀ r1, r.disconnect id = (POutcome.ok (), r1) →
      dispatchStep r (some (id, Message.Disconnect)) = DispatchOutcome.continued r1) ∧
    (∀ e r1, r.disconnect id = (POutcome.err e, r1) →
      dispatchStep r (some (id, Message.Disconnect)) = DispatchOutcome.stoppedErr e) ∧
    dispatchStep r (some (id, Message.InvalidMessage)) =
      DispatchOutcome.stoppedErr (Error.UnexpectedMessage Message.InvalidMessage) ∧
    dispatchStep r (some (id, Message.Error s)) =
      DispatchOutcome.stoppedErr (Error.UnexpectedMessage (Message.Error s)) := by
  refine ⟨rfl, rfl, rfl, dataOutcome_not_hard _, dataOutcome_not_hard _,
    scan_count_source_zero _ _ _, scan_count_source_zero _ _ _, ?_, ?_, rfl, rfl⟩
  · intro r1 h
    simp [dispatchStep, h]
  · intro e r1 h
    simp [dispatchStep, h]

/-- Claim C2 witness: the routing arms evaluated on the concrete registry
`regOne`, discharging both hypotheses of the Disconnect conjuncts — once
with the present id 5 (continues with the shrunken registry) and once with
the absent id 4 (hard stop with `InvalidConnectionId`). -/
theorem claim2_dispatch_routing_witness :
    dispatchStep regOne none = DispatchOutcome.stoppedOk ∧
    dispatchStep regOne (some (5, Message.Disconnect)) = DispatchOutcome.continued ⟨6, []⟩ ∧
    dispatchStep regOne (some (4, Message.Disconnect)) =
      DispatchOutcome.stoppedErr (Error.InvalidConnectionId 4) ∧
    dispatchStep regOne (some (5, Message.Error "boom")) =
      DispatchOutcome.stoppedErr (Error.UnexpectedMessage (Message.Error "boom")) := by
  obtain ⟨w1, -, -, -, -, -, -, wok, -, -, werr2⟩ := claim2_dispatch_routing regOne 5 "boom"
  obtain ⟨-, -, -, -, -, -, -, -, werr4, -, -⟩ := claim2_dispatch_routing regOne 4 "boom"
  exact ⟨w1, wok ⟨6, []⟩ (by decide), werr4 (Error.InvalidConnectionId 4) regOne (by decide),
    werr2⟩

/-! Codec lemmas: the JSON string escape/parse round-trip, character by
character, then the full message round-trip. -/

theorem string_mk_data (s : String) : String.mk s.data = s := by
  cases s
  rfl

theorem isWs_lbraceC : isWs lbraceC = false := rfl

theorem isWs_quoteC : isWs quoteC = false := rfl

theorem isWs_colonC : isWs colonC = false := rfl

theorem isWs_rbraceC : isWs rbraceC = false := rfl

theorem skipWs_nl : skipWs [nlC] = [] := rfl

theorem lbraceC_ne_quoteC : ¬ lbraceC = quoteC := by decide

theorem errData_ne_textData : ¬ "Error".data = "Text".data := by decide

theorem parseStrF_quote (f : Nat) (rest : List Char) :
    parseStrF (f + 1) (quoteC :: rest) = some ([], rest) := rfl

theorem parseStrF_escQuote (f : Nat) (l : List Char) :
    parseStrF (f + 1) (bsC :: quoteC :: l) = consOpt quoteC (parseStrF f l) := rfl

theorem parseStrF_escBs (f : Nat) (l : List Char) :
    parseStrF (f + 1) (bsC :: bsC :: l) = consOpt bsC (parseStrF f l) := rfl

theorem parseStrF_escB (f : Nat) (l : List Char) :
    parseStrF (f + 1) (bsC :: 'b' :: l) = consOpt (Char.ofNat 8) (parseStrF f l) := rfl

theorem parseStrF_escT (f : Nat) (l : List Char) :
    parseStrF (f + 1) (bsC :: 't' :: l) = consOpt (Char.ofNat 9) (parseStrF f l) := rfl

theorem parseStrF_escN (f : Nat) (l : List Char) :
    parseStrF (f + 1) (bsC :: 'n' :: l) = consOpt (Char.ofNat 10) (parseStrF f l) := rfl

theorem parseStrF_escF (f : Nat) (l : List Char) :
    parseStrF (f + 1) (bsC :: 'f' :: l) = consOpt (Char.ofNat 12) (parseStrF f l) := rfl

theorem parseStrF_escR (f : Nat) (l : List Char) :
    parseStrF (f + 1) (bsC :: 'r' :: l) = consOpt (Char.ofNat 13) (parseStrF f l) := rfl

theorem parseStrF_escU00 (f : Nat) (k : Nat) (h : k < 32) (l : List Char) :
    parseStrF (f + 1) (bsC :: 'u' :: '0' :: '0' :: hexDigitChar (k / 16) ::
      hexDigitChar (k % 16) :: l) = consOpt (Char.ofNat k) (parseStrF f l) := by
  interval_cases k <;> rfl

theorem parseStrF_plain (f : Nat) (c : Char) (l : List Char) (h1 : ¬ c = quoteC)
    (h2 : ¬ c = bsC) (h3 : ¬ c.toNat < 32) :
    parseStrF (f + 1) (c :: l) = consOpt c (parseStrF f l) := by
  simp only [parseStrF]
  rw [if_neg h1, if_neg h2, if_neg h3]

/-- Parsing an escaped string body succeeds with any sufficient fuel. -/
theorem parseStrF_escString (s : List Char) : ∀ (f : Nat) (rest : List Char), s.length < f →
    parseStrF f (escString s ++ quoteC :: rest) = some (s, rest) := by
  induction s with
  | nil =>
    intro f rest hf
    cases f with
    | zero => omega
    | succ f => exact parseStrF_quote f rest
  | cons c t ih =>
    intro f rest hf
    cases f with
    | zero => omega
    | succ f =>
      have hf2 : t.length < f := by
        simp only [List.length_cons] at hf
        omega
      show parseStrF (f + 1) ((escChar c ++ escString t) ++ quoteC :: rest) = some (c :: t, rest)
      rw [List.append_assoc]
      unfold escChar
      by_cases h1 : c = quoteC
      · subst h1
        rw [if_pos rfl]
        show parseStrF (f + 1) (bsC :: quoteC :: (escString t ++ quoteC :: rest)) = _
        rw [parseStrF_escQuote, ih f rest hf2]
        rfl
      · rw [if_neg h1]
        by_cases h2 : c = bsC
        · subst h2
          rw [if_pos rfl]
          show parseStrF (f + 1) (bsC :: bsC :: (escString t ++ quoteC :: rest)) = _
          rw [parseStrF_escBs, ih f rest hf2]
          rfl
        · rw [if_neg h2]
          by_cases h3 : c.toNat = 8
          · rw [if_pos h3]
            show parseStrF (f + 1) (bsC :: 'b' :: (escString t ++ quoteC :: rest)) = _
            rw [parseStrF_escB, ih f rest hf2]
            have hc : Char.ofNat 8 = c := by rw [← h3, Char.ofNat_toNat]
            rw [hc]
            rfl
          · rw [if_neg h3]
            by_cases h4 : c.toNat = 9
            · rw [if_pos h4]
              show parseStrF (f + 1) (bsC :: 't' :: (escString t ++ quoteC :: rest)) = _
              rw [parseStrF_escT, ih f rest hf2]
              have hc : Char.ofNat 9 = c := by rw [← h4, Char.ofNat_toNat]
              rw [hc]
              rfl
            · rw [if_neg h4]
              by_cases h5 : c.toNat = 10
              · rw [if_pos h5]
                show parseStrF (f + 1) (bsC :: 'n' :: (escString t ++ quoteC :: rest)) = _
                rw [parseStrF_escN, ih f rest hf2]
                have hc : Char.ofNat 10 = c := by rw [← h5, Char.ofNat_toNat]
                rw [hc]
                rfl
              · rw [if_neg h5]
                by_cases h6 : c.toNat = 12
                · rw [if_pos h6]
                  show parseStrF (f + 1) (bsC :: 'f' :: (escString t ++ quoteC :: rest)) = _
                  rw [parseStrF_escF, ih f rest hf2]
                  have hc : Char.ofNat 12 = c := by rw [← h6, Char.ofNat_toNat]
                  rw [hc]
                  rfl
                · rw [if_neg h6]
                  by_cases h7 : c.toNat = 13
                  · rw [if_pos h7]
                    show parseStrF (f + 1) (bsC :: 'r' :: (escString t ++ quoteC :: rest)) = _
                    rw [parseStrF_escR, ih f rest hf2]
                    have hc : Char.ofNat 13 = c := by rw [← h7, Char.ofNat_toNat]
                    rw [hc]
                    rfl
                  · rw [if_neg h7]
                    by_cases h8 : c.toNat < 32
                    · rw [if_pos h8]
                      show parseStrF (f + 1) (bsC :: 'u' :: '0' :: '0' ::
                          hexDigitChar (c.toNat / 16) :: hexDigitChar (c.toNat % 16) ::
                          (escString t ++ quoteC :: rest)) = _
                      rw [parseStrF_escU00 f c.toNat h8, ih f rest hf2, Char.ofNat_toNat]
                      rfl
                    · rw [if_neg h8]
                      show parseStrF (f + 1) (c :: (escString t ++ quoteC :: rest)) = _
                      rw [parseStrF_plain f c _ h1 h2 h8, ih f rest hf2]
                      rfl

theorem escChar_length_pos (c : Char) : 1 ≤ (escChar c).length := by
  unfold escChar
  split_ifs <;> simp

theorem length_le_escString (s : List Char) : s.length ≤ (escString s).length := by
  induction s with
  | nil => simp [escString]
  | cons c t ih =>
    show (c :: t).length ≤ (escChar c ++ escString t).length
    rw [List.length_append, List.length_cons]
    have := escChar_length_pos c
    omega

/-- The escape/parse round-trip for JSON string bodies, at the canonical
fuel used by `parseStr`. -/
theorem parseStr_escString (s : List Char) (rest : List Char) :
    parseStr (escString s ++ quoteC :: rest) = some (s, rest) := by
  unfold parseStr
  apply parseStrF_escString
  have := length_le_escString s
  rw [List.length_append]
  simp only [List.length_cons]
  omega

/-! The encoder never emits a raw newline: the terminator appended by
`Message::write` is the only newline on the wire, so `read_line` consumes
exactly one encoded message. -/

theorem hexDigitChar_ne_nlC (k : Nat) (h : k < 16) : ¬ nlC = hexDigitChar k := by
  interval_cases k <;> decide

theorem nlC_not_mem_escChar (c : Char) : ¬ nlC ∈ escChar c := by
  unfold escChar
  by_cases h1 : c = quoteC
  · rw [if_pos h1]; decide
  · rw [if_neg h1]
    by_cases h2 : c = bsC
    · rw [if_pos h2]; decide
    · rw [if_neg h2]
      by_cases h3 : c.toNat = 8
      · rw [if_pos h3]; decide
      · rw [if_neg h3]
        by_cases h4 : c.toNat = 9
        · rw [if_pos h4]; decide
        · rw [if_neg h4]
          by_cases h5 : c.toNat = 10
          · rw [if_pos h5]; decide
          · rw [if_neg h5]
            by_cases h6 : c.toNat = 12
            · rw [if_pos h6]; decide
            · rw [if_neg h6]
              by_cases h7 : c.toNat = 13
              · rw [if_pos h7]; decide
              · rw [if_neg h7]
                by_cases h8 : c.toNat < 32
                · rw [if_pos h8]
                  intro hm
                  simp only [List.mem_cons] at hm
                  rcases hm with h | h | h | h | h | h | h
                  · exact absurd h (by decide)
                  · exact absurd h (by decide)
                  · exact absurd h (by decide)
                  · exact absurd h (by decide)
                  · exact hexDigitChar_ne_nlC _ (by omega) h
                  · exact hexDigitChar_ne_nlC _ (by omega) h
                  · exact absurd h (List.not_mem_nil _)
                · rw [if_neg h8]
                  intro hm
                  have h := List.mem_singleton.1 hm
                  apply h8
                  rw [← h]
                  decide

theorem nlC_not_mem_escString (s : List Char) : ¬ nlC ∈ escString s := by
  induction s with
  | nil => simp [escString]
  | cons c t ih =>
    show ¬ nlC ∈ escChar c ++ escString t
    intro h
    rcases List.mem_append.1 h with h | h
    · exact nlC_not_mem_escChar c h
    · exact ih h

theorem nlC_not_mem_quoteJson (s : List Char) : ¬ nlC ∈ quoteJson s := by
  unfold quoteJson
  intro h
  rcases List.mem_cons.1 h with h | h
  · exact absurd h (by decide)
  · rcases List.mem_append.1 h with h | h
    · exact nlC_not_mem_escString s h
    · exact absurd (List.mem_singleton.1 h) (by decide)

theorem nlC_not_mem_to_string (m : Message) : ¬ nlC ∈ m.to_string := by
  cases m with
  | Ping => decide
  | InvalidMessage => decide
  | Disconnect => decide
  | Text s =>
    intro h
    replace h : nlC ∈ lbraceC ::
        (quoteJson "Text".data ++ (colonC :: (quoteJson s.data ++ [rbraceC]))) := h
    rcases List.mem_cons.1 h with h | h
    · exact absurd h (by decide)
    · rcases List.mem_append.1 h with h | h
      · exact nlC_not_mem_quoteJson _ h
      · rcases List.mem_cons.1 h with h | h
        · exact absurd h (by decide)
        · rcases List.mem_append.1 h with h | h
          · exact nlC_not_mem_quoteJson _ h
          · exact absurd (List.mem_singleton.1 h) (by decide)
  | Error s =>
    intro h
    replace h : nlC ∈ lbraceC ::
        (quoteJson "Error".data ++ (colonC :: (quoteJson s.data ++ [rbraceC]))) := h
    rcases List.mem_cons.1 h with h | h
    · exact absurd h (by decide)
    · rcases List.mem_append.1 h with h | h
      · exact nlC_not_mem_quoteJson _ h
      · rcases List.mem_cons.1 h with h | h
        · exact absurd h (by decide)
        · rcases List.mem_append.1 h with h | h
          · exact nlC_not_mem_quoteJson _ h
          · exact absurd (List.mem_singleton.1 h) (by decide)

theorem readLine_append_nl (l : List Char) (h : ¬ nlC ∈ l) :
    readLine (l ++ [nlC]) = l ++ [nlC] := by
  induction l with
  | nil => rfl
  | cons c t ih =>
    have hc : ¬ c = nlC := fun he => h (by rw [he]; exact List.mem_cons_self _ _)
    have ht : ¬ nlC ∈ t := fun hm => h (List.mem_cons_of_mem _ hm)
    show readLine (c :: (t ++ [nlC])) = c :: (t ++ [nlC])
    simp only [readLine]
    rw [if_neg hc, ih ht]

/-! Deserializing the serializer's output, shape by shape. -/

theorem parseMessage_text (s rest : List Char) :
    parseMessage (lbraceC :: quoteJson "Text".data ++ colonC :: quoteJson s ++ rbraceC :: rest)
      = some (Message.Text (String.mk s), rest) := by
  simp only [quoteJson, List.cons_append, List.append_assoc, List.singleton_append]
  simp +decide [parseMessage, skipWs, parseStr_escString]

theorem parseMessage_err (s rest : List Char) :
    parseMessage (lbraceC :: quoteJson "Error".data ++ colonC :: quoteJson s ++ rbraceC :: rest)
      = some (Message.Error (String.mk s), rest) := by
  simp only [quoteJson, List.cons_append, List.append_assoc, List.singleton_append]
  simp +decide [parseMessage, skipWs, parseStr_escString]

theorem from_str_to_string (m : Message) : from_str (m.to_string ++ [nlC]) = some m := by
  cases m with
  | Ping => decide
  | InvalidMessage => decide
  | Disconnect => decide
  | Text s =>
    have h1 : Message.to_string (Message.Text s) ++ [nlC]
        = lbraceC :: quoteJson "Text".data ++ colonC :: quoteJson s.data ++ rbraceC :: [nlC] := by
      show (lbraceC :: (quoteJson "Text".data ++ (colonC :: (quoteJson s.data ++ [rbraceC]))))
          ++ [nlC] = _
      simp [List.append_assoc]
    rw [h1]
    unfold from_str
    rw [parseMessage_text s.data [nlC]]
    simp [skipWs_nl, string_mk_data]
  | Error s =>
    have h1 : Message.to_string (Message.Error s) ++ [nlC]
        = lbraceC :: quoteJson "Error".data ++ colonC :: quoteJson s.data ++ rbraceC :: [nlC] := by
      show (lbraceC :: (quoteJson "Error".data ++ (colonC :: (quoteJson s.data ++ [rbraceC]))))
          ++ [nlC] = _
      simp [List.append_assoc]
    rw [h1]
    unfold from_str
    rw [parseMessage_err s.data [nlC]]
    simp [skipWs_nl, string_mk_data]

theorem message_recv_write (m : Message) : Message.recv (Message.write m) = Except.ok m := by
  unfold Message.recv Message.write
  rw [readLine_append_nl m.to_string (nlC_not_mem_to_string m), from_str_to_string]

theorem write_count_nl (m : Message) : List.count nlC (Message.write m) = 1 := by
  unfold Message.write
  rw [List.count_append]
  have h0 : List.count nlC m.to_string = 0 := by
    rw [List.count_eq_zero]
    exact nlC_not_mem_to_string m
  rw [h0]
  rfl

theorem write_last_nl (m : Message) : (Message.write m).getLast? = some nlC := by
  unfold Message.write
  rw [List.getLast?_concat]

theorem startsObject_to_string (m : Message) : jsonStartsObject m.to_string = isDataVariant m := by
  cases m <;> rfl

/-- Claim C8 counterexample: the claim calls the encoding of every message
"one JSON object", but serde_json serializes the unit variant `Ping` as
the JSON string `"Ping"` — its encoding starts with a quote, not an
opening brace, so it is not a JSON object (it still round-trips). -/
theorem claim8_ping_encoding_not_object :
    Message.write Message.Ping = quoteC :: "Ping".data ++ [quoteC, nlC] ∧
    jsonStartsObject (Message.to_string Message.Ping) = false ∧
    Message.recv (Message.write Message.Ping) = Except.ok Message.Ping := by
  decide

/-- Claim C8 (amended): for every representable Message value — including
Ping, Disconnect, Text with the empty string, and Text containing embedded
quotes, control characters or unicode — `Message::recv` applied to the
bytes produced by `Message::write` yields the value back, and the encoding
is one JSON value terminated by exactly one newline (its last byte, and
the only newline in it): a single-key JSON object for the data variants
Text and Error, a JSON string for the unit variants. -/
theorem claim8_roundtrip_json_value (m : Message) :
    Message.recv (Message.write m) = Except.ok m ∧
    List.count nlC (Message.write m) = 1 ∧
    (Message.write m).getLast? = some nlC ∧
    jsonStartsObject m.to_string = isDataVariant m :=
  ⟨message_recv_write m, write_count_nl m, write_last_nl m, startsObject_to_string m⟩
